import Mathlib

/-!
Verification of the SCIM user provisioning core of this repository.

The repository sample contains the component's test file
(enterprise/internal/scim/user_test.go) but not the handler implementation
itself, so the Pager, Filter Evaluator, Attribute Mapper and Resource
Handler are modelled from the specification, and the concrete store and
expectations are taken from the test file.
-/

namespace Scim

/-- An email record of an internal user, as described by the data model:
Email with address, isPrimary and verified flags. -/
structure Email where
  address : String
  isPrimary : Bool
  verified : Bool
deriving DecidableEq, Repr

/-- An internal user record as held by the user-store collaborator:
numeric identity, unique username, free-text display name, ordered email
list, and an optional external correlation id (empty string means "not
correlated"). Mirrors types.UserForSCIM as used in user_test.go. -/
structure InternalUser where
  id : Nat
  username : String
  displayName : String
  emails : List Email
  scimExternalID : String
deriving DecidableEq, Repr

/-- The name sub-object of the protocol attribute tree, with the three
components givenName, middleName and familyName. The test file asserts
that all three keys are present (middleName may be the empty string). -/
structure NameAttr where
  givenName : String
  middleName : String
  familyName : String
deriving DecidableEq, Repr

/-- An email entry of the protocol attribute tree: value and primary flag. -/
structure EmailAttr where
  value : String
  primary : Bool
deriving DecidableEq, Repr

/-- The protocol attribute tree with the recognized top-level keys of the
data model: userName, name, displayName, emails, active. Absent keys are
None. -/
structure AttributeTree where
  userName : Option String
  name : Option NameAttr
  displayName : Option String
  emails : Option (List EmailAttr)
  active : Option Bool
deriving DecidableEq, Repr

/-- A resource returned by the handler: stringified numeric id, the
external id observable (the string value reported for the externalId
attribute; empty when not correlated), and the attribute tree. -/
structure Resource where
  id : String
  externalIdValue : String
  attributes : AttributeTree
deriving DecidableEq, Repr

/-- Result of a GetAll call: the size of the filtered set before
windowing, and the windowed resource list. -/
structure ListResponse where
  totalResults : Nat
  resources : List Resource
deriving DecidableEq, Repr

/-- The error taxonomy of the error handling design: parse, validation,
conflict, not-found and permission errors. -/
inductive ScimError where
  | parse
  | validation
  | conflict
  | notFound
  | permission
deriving DecidableEq, Repr

/-- The calling actor; the handler only checks the site-administrator flag. -/
structure Caller where
  siteAdmin : Bool
deriving DecidableEq, Repr

/-- Lower-case an ASCII letter, leaving other characters unchanged. -/
def lowerChar (c : Char) : Char :=
  if 65 ≤ c.toNat && c.toNat ≤ 90 then Char.ofNat (c.toNat + 32) else c

/-- Lower-case a string character by character (ASCII). -/
def lowerStr (s : String) : String :=
  ⟨s.data.map lowerChar⟩

/-- Splits a character list into space-separated words, accumulating the
current word in reverse in the second argument. -/
def wordsAux : List Char → List Char → List String
  | [], acc => if acc.isEmpty then [] else [⟨acc.reverse⟩]
  | c :: cs, acc =>
    if c == ' ' then
      if acc.isEmpty then wordsAux cs [] else (⟨acc.reverse⟩ : String) :: wordsAux cs []
    else wordsAux cs (c :: acc)

/-- The space-separated words of a string, empty words dropped. -/
def words (s : String) : List String :=
  wordsAux s.data []

/-- Joins a list of words with single spaces. -/
def joinSpace : List String → String
  | [] => ""
  | [w] => w
  | w :: ws => w ++ " " ++ joinSpace ws

/-- Modelled from the spec: the DisplayName synthesis invariant.
DisplayName is the join-with-space of the name components, empty
components filtered out. (The Attribute Mapper implementation is not in
the sample.) -/
def joinNameParts (g m f : String) : String :=
  joinSpace ([g, m, f].filter (fun w => w ≠ ""))

/-- The last word of a nonempty word list, given as head plus tail. -/
def lastWord : String → List String → String
  | w, [] => w
  | _, w :: rest => lastWord w rest

/-- Modelled from the spec: the Attribute Mapper's synthesis of the name
sub-object from the flat stored DisplayName (the mapper implementation is
not in the sample; the split is fixed by the test expectations: two words
give givenName and familyName with an empty middleName, three words put
the middle word in middleName). -/
def splitDisplayName (dn : String) : NameAttr :=
  match words dn with
  | [] => ⟨"", "", ""⟩
  | [w] => ⟨w, "", ""⟩
  | g :: w :: rest => ⟨g, joinSpace ((w :: rest).dropLast), lastWord w rest⟩

/-- Marks the primary flags of the synthesized email list; the Boolean
argument records whether a primary email was already seen, so only the
first stored email with isPrimary set is marked. -/
def synthEmailsGo : Bool → List Email → List EmailAttr
  | _, [] => []
  | seen, e :: rest =>
    ⟨e.address, e.isPrimary && !seen⟩ :: synthEmailsGo (seen || e.isPrimary) rest

/-- Modelled from the spec: the primary-email invariant of the Attribute
Mapper (implementation not in the sample) — the output email list mirrors
store order, and exactly the first email with isPrimary set is marked
primary; when none is marked in the store, none is marked in the output. -/
def synthEmails (emails : List Email) : List EmailAttr :=
  synthEmailsGo false emails

/-- The index of the first email with isPrimary set, if any. -/
def firstPrimaryIdx : List Email → Option Nat
  | [] => none
  | e :: rest => if e.isPrimary then some 0 else (firstPrimaryIdx rest).map (· + 1)

/-- Modelled from the spec: the outbound Attribute Mapper (implementation
not in the sample). It always includes the stringified numeric id, the
external id value, the synthesized displayName recomputed from the name
components, the name sub-object, and the email list with primary flags
per the primary-email invariant. -/
def toResource (u : InternalUser) : Resource :=
  let n := splitDisplayName u.displayName
  { id := toString u.id
    externalIdValue := u.scimExternalID
    attributes :=
      { userName := some u.username
        name := some n
        displayName := some (joinNameParts n.givenName n.middleName n.familyName)
        emails := some (synthEmails u.emails)
        active := some true } }

/-- The fields extracted from an inbound attribute tree by the inbound
Attribute Mapper. -/
structure ParsedAttributes where
  username : Option String
  displayName : Option String
  givenName : String
  middleName : String
  familyName : String
  emails : Option (List EmailAttr)
deriving DecidableEq, Repr

/-- Modelled from the spec: the inbound Attribute Mapper (implementation
not in the sample). It extracts the optional userName, the name
components it can unambiguously parse (never inventing a middleName), the
derived display name recomputed from the components when a name
sub-object is present, and the optional email list; absent fields stay
unset. -/
def fromAttributes (t : AttributeTree) : ParsedAttributes :=
  { username := t.userName
    displayName :=
      match t.name with
      | some n => some (joinNameParts n.givenName n.middleName n.familyName)
      | none => t.displayName
    givenName := (t.name.map NameAttr.givenName).getD ""
    middleName := (t.name.map NameAttr.middleName).getD ""
    familyName := (t.name.map NameAttr.familyName).getD ""
    emails := t.emails }

/-- A typed attribute value, for filter literals and lookups. -/
inductive AttrValue where
  | str : String → AttrValue
  | bool : Bool → AttrValue
deriving DecidableEq, Repr

/-- The filter operator set; equality is the only operator exercised. -/
inductive FilterOp where
  | eq
deriving DecidableEq, Repr

/-- A filter expression: a predicate over an attribute path, or an
AND/OR combination. -/
inductive FilterExpr where
  | pred : String → FilterOp → AttrValue → FilterExpr
  | and : FilterExpr → FilterExpr → FilterExpr
  | or : FilterExpr → FilterExpr → FilterExpr
deriving DecidableEq, Repr

/-- Modelled from the spec: attribute-path lookup of the Filter Evaluator
(implementation not in the sample). Path matching is case-insensitive; an
unknown path yields "not present". -/
def lookupAttr (t : AttributeTree) (path : String) : Option AttrValue :=
  let p := lowerStr path
  if p = "username" then t.userName.map AttrValue.str
  else if p = "displayname" then t.displayName.map AttrValue.str
  else if p = "active" then t.active.map AttrValue.bool
  else if p = "name.givenname" then t.name.map (fun n => AttrValue.str n.givenName)
  else if p = "name.middlename" then t.name.map (fun n => AttrValue.str n.middleName)
  else if p = "name.familyname" then t.name.map (fun n => AttrValue.str n.familyName)
  else none

/-- Modelled from the spec: the Filter Evaluator (implementation not in
the sample). Evaluation is pure and total; equality is an exact match on
the typed value, and a missing attribute never satisfies a predicate. -/
def evalFilter : FilterExpr → AttributeTree → Bool
  | .pred path op lit, t =>
    match lookupAttr t path with
    | some v => match op with | .eq => decide (v = lit)
    | none => false
  | .and l r, t => evalFilter l t && evalFilter r t
  | .or l r, t => evalFilter l t || evalFilter r t

/-- An absent filter matches every tree. -/
def evalFilterOpt (f : Option FilterExpr) (r : Resource) : Bool :=
  match f with
  | none => true
  | some f => evalFilter f r.attributes

/-- Modelled from the spec: the Pager (implementation not in the sample).
window(totalCount, startIndex, count) clamps startIndex below at 1, sets
offset to startIndex - 1 and limit to max 0 (min count (totalCount -
offset)). Pure, no I/O. -/
def window (totalCount startIndex count : Int) : Int × Int :=
  (max startIndex 1 - 1, max 0 (min count (totalCount - (max startIndex 1 - 1))))

/-- Modelled from the spec: the GetAll algorithm of the Resource Handler
(implementation not in the sample) — map every candidate to its attribute
tree, keep the filter matches in store order, report their number as
totalResults, window the matched list with the Pager, and return the
windowed slice. -/
def getAll (store : List InternalUser) (f : Option FilterExpr)
    (startIndex count : Int) : ListResponse :=
  let ms := (store.map toResource).filter (evalFilterOpt f)
  let w := window (ms.length : Int) startIndex count
  { totalResults := ms.length
    resources := (ms.drop w.1.toNat).take w.2.toNat }

/-- Looks up a user by its stringified id in the store. -/
def findUser (store : List InternalUser) (id : String) : Option InternalUser :=
  store.find? (fun u => toString u.id == id)

/-- The next numeric identity the store would assign. -/
def nextId (store : List InternalUser) : Nat :=
  store.foldr (fun u m => max u.id m) 0 + 1

/-- Modelled from the spec: the internal record created from parsed
inbound attributes. -/
def newUserFromAttrs (store : List InternalUser) (p : ParsedAttributes)
    (un : String) : InternalUser :=
  { id := nextId store
    username := un
    displayName := p.displayName.getD ""
    emails := (p.emails.getD []).map (fun ea => ⟨ea.value, ea.primary, false⟩)
    scimExternalID := "" }

/-- Modelled from the spec: the Get operation of the Resource Handler
(implementation not in the sample), with its authorization check first.
The second component counts the store accesses the call performed. -/
def handleGet (caller : Caller) (store : List InternalUser) (id : String) :
    Except ScimError Resource × Nat :=
  if caller.siteAdmin then
    match findUser store id with
    | some u => (.ok (toResource u), 1)
    | none => (.error .notFound, 1)
  else (.error .permission, 0)

/-- Modelled from the spec: the GetAll operation of the Resource Handler
(implementation not in the sample), with its authorization check first.
The second component counts the store accesses the call performed. -/
def handleGetAll (caller : Caller) (store : List InternalUser)
    (f : Option FilterExpr) (startIndex count : Int) :
    Except ScimError ListResponse × Nat :=
  if caller.siteAdmin then (.ok (getAll store f startIndex count), 1)
  else (.error .permission, 0)

/-- Modelled from the spec: the Create operation of the Resource Handler
(implementation not in the sample) — authorization first, then
validation of the required userName, then the store create that fails
with a conflict on a duplicate username. The second component counts the
store accesses the call performed. -/
def handleCreate (caller : Caller) (store : List InternalUser)
    (t : AttributeTree) : Except ScimError Resource × Nat :=
  if caller.siteAdmin then
    let p := fromAttributes t
    match p.username with
    | none => (.error .validation, 0)
    | some un =>
      if store.any (fun u => u.username == un) then (.error .conflict, 1)
      else (.ok (toResource (newUserFromAttrs store p un)), 1)
  else (.error .permission, 0)

/-- Modelled from the spec: the Replace operation of the Resource Handler
(implementation not in the sample), with its authorization check first.
The second component counts the store accesses the call performed. -/
def handleReplace (caller : Caller) (store : List InternalUser)
    (id : String) (t : AttributeTree) : Except ScimError Resource × Nat :=
  if caller.siteAdmin then
    match findUser store id with
    | some u =>
      let p := fromAttributes t
      (.ok (toResource { u with
        username := p.username.getD u.username
        displayName := p.displayName.getD u.displayName
        emails := match p.emails with
          | none => u.emails
          | some es => es.map (fun ea => ⟨ea.value, ea.primary, false⟩) }), 1)
    | none => (.error .notFound, 1)
  else (.error .permission, 0)

/-- Modelled from the spec: the Delete operation of the Resource Handler
(implementation not in the sample), with its authorization check first.
The second component counts the store accesses the call performed. -/
def handleDelete (caller : Caller) (store : List InternalUser)
    (id : String) : Except ScimError Unit × Nat :=
  if caller.siteAdmin then
    match findUser store id with
    | some _ => (.ok (), 1)
    | none => (.error .notFound, 1)
  else (.error .permission, 0)

/-- The four-user store of getMockDB in user_test.go. -/
def mockUsers : List InternalUser :=
  [ ⟨1, "user1", "First Last", [⟨"a@example.com", false, false⟩], "external1"⟩,
    ⟨2, "user2", "First Middle Last", [⟨"b@example.com", false, false⟩], ""⟩,
    ⟨3, "user3", "First Last", [], ""⟩,
    ⟨4, "user4", "", [], ""⟩ ]

/-- The filter userName eq "user3" of the GetAll test table. -/
def filterUser3 : FilterExpr :=
  .pred "userName" .eq (.str "user3")

/-- The filter (userName eq "user3") OR (displayName eq "First Middle
Last") of the GetAll test table. -/
def filterOr : FilterExpr :=
  .or (.pred "userName" .eq (.str "user3"))
      (.pred "displayName" .eq (.str "First Middle Last"))

/-- The filter (userName eq "user3") AND (displayName eq "First Last") of
the GetAll test table. -/
def filterAnd : FilterExpr :=
  .and (.pred "userName" .eq (.str "user3"))
       (.pred "displayName" .eq (.str "First Last"))

end Scim

namespace Scim

/-- The first user of the mock store, stored with the flat display name
"First Last" and no separate name components. -/
def mockUser1 : InternalUser :=
  ⟨1, "user1", "First Last", [⟨"a@example.com", false, false⟩], "external1"⟩

/-- The synthesized email list mirrors the store order of the addresses,
whatever the seen flag. -/
theorem synthEmailsGo_map_value (seen : Bool) (es : List Email) :
    (synthEmailsGo seen es).map EmailAttr.value = es.map Email.address := by
  induction es generalizing seen with
  | nil => rfl
  | cons e rest ih => simp [synthEmailsGo, ih]

/-- Once a primary email has been seen, no later synthesized email is
marked primary. -/
theorem synthEmailsGo_true_not_marked :
    ∀ (es : List Email) (j : Nat) (e : EmailAttr),
    (synthEmailsGo true es)[j]? = some e → e.primary = false := by
  intro es
  induction es with
  | nil => intro j e h; simp [synthEmailsGo] at h
  | cons a rest ih =>
    intro j e h
    cases j with
    | zero =>
      simp [synthEmailsGo] at h
      rw [← h]
    | succ k =>
      simp [synthEmailsGo] at h
      exact ih k e h

/-- A synthesized email is marked primary at exactly the position of the
first stored email with the isPrimary flag. -/
theorem synthEmails_marked_iff : ∀ (es : List Email) (j : Nat),
    (∃ e, (synthEmails es)[j]? = some e ∧ e.primary = true) ↔
      firstPrimaryIdx es = some j := by
  intro es
  unfold synthEmails
  induction es with
  | nil => intro j; simp [synthEmailsGo, firstPrimaryIdx]
  | cons a rest ih =>
    intro j
    cases hpa : a.isPrimary with
    | true =>
      cases j with
      | zero => simp [synthEmailsGo, firstPrimaryIdx, hpa]
      | succ k =>
        simp only [synthEmailsGo, firstPrimaryIdx, hpa, if_pos, List.getElem?_cons_succ,
          Bool.true_or, Bool.or_true]
        constructor
        · rintro ⟨e, he, hpe⟩
          rw [synthEmailsGo_true_not_marked rest k e he] at hpe
          exact absurd hpe (by simp)
        · intro h
          simp at h
    | false =>
      cases j with
      | zero =>
        simp [synthEmailsGo, firstPrimaryIdx, hpa]
      | succ k =>
        simp only [synthEmailsGo, firstPrimaryIdx, hpa, if_neg, Bool.false_or,
          List.getElem?_cons_succ, Bool.false_eq_true, ite_false]
        rw [ih k]
        constructor
        · intro h
          rw [h]
          rfl
        · intro h
          rcases Option.map_eq_some'.mp h with ⟨m, hm, hmk⟩
          have : m = k := by omega
          rw [← this]
          exact hm

/-- After a primary email has been seen, no synthesized email counts as
marked. -/
theorem synthEmailsGo_true_countP (es : List Email) :
    (synthEmailsGo true es).countP (fun e => e.primary) = 0 := by
  induction es with
  | nil => rfl
  | cons a rest ih => simp [synthEmailsGo, List.countP_cons, ih]

/-- The synthesized email list carries at most one primary mark. -/
theorem synthEmails_countP_le_one (es : List Email) :
    (synthEmailsGo false es).countP (fun e => e.primary) ≤ 1 := by
  induction es with
  | nil => simp [synthEmailsGo]
  | cons a rest ih =>
    cases hpa : a.isPrimary with
    | true => simp [synthEmailsGo, List.countP_cons, hpa, synthEmailsGo_true_countP]
    | false => simp [synthEmailsGo, List.countP_cons, hpa, ih]

/-- When no stored email carries the isPrimary flag, no synthesized email
is marked primary. -/
theorem synthEmails_none_not_marked : ∀ (es : List Email),
    firstPrimaryIdx es = none → ∀ e ∈ synthEmails es, e.primary = false := by
  intro es
  unfold synthEmails
  induction es with
  | nil => intro _ e he; simp [synthEmailsGo] at he
  | cons a rest ih =>
    intro h e he
    cases hpa : a.isPrimary with
    | true => simp [firstPrimaryIdx, hpa] at h
    | false =>
      simp only [firstPrimaryIdx, hpa, Bool.false_eq_true, ite_false,
        Option.map_eq_none'] at h
      simp only [synthEmailsGo, hpa, Bool.false_and, Bool.or_false,
        List.mem_cons] at he
      cases he with
      | inl hh => rw [hh]
      | inr hh => exact ih h e hh

/-- The synthesized display name is the space-join of the nonempty
components of the synthesized name sub-object. -/
theorem toResource_displayName_of_name (u : InternalUser) (n : NameAttr)
    (h : (toResource u).attributes.name = some n) :
    (toResource u).attributes.displayName =
      some (joinNameParts n.givenName n.middleName n.familyName) := by
  simp only [toResource, Option.some.injEq] at h
  rw [← h]
  rfl

/-- Claim C1: for every GetAll call with an optional filter, count c ≥ 0
and startIndex s ≥ 1, totalResults is the number of stored users whose
synthesized attribute tree satisfies the filter (all users when it is
absent), computed before windowing; the number of returned resources is
max 0 (min c (totalResults - (s - 1))), and c = 0 returns no resources
while totalResults is still reported in full. -/
theorem getAll_pagination_correct (store : List InternalUser)
    (f : Option FilterExpr) (c s : Int) (hc : 0 ≤ c) (hs : 1 ≤ s) :
    (getAll store f s c).totalResults
        = store.countP (fun u => evalFilterOpt f (toResource u)) ∧
    (f = none → (getAll store f s c).totalResults = store.length) ∧
    ((getAll store f s c).resources.length : Int)
        = max 0 (min c (((getAll store f s c).totalResults : Int) - (s - 1))) ∧
    (c = 0 → (getAll store f s c).resources = []) := by
  refine ⟨?_, ?_, ?_, ?_⟩
  · simp only [getAll, ← List.countP_eq_length_filter, List.countP_map]
    rfl
  · intro h
    subst h
    simp [getAll, ← List.countP_eq_length_filter, evalFilterOpt]
  · simp only [getAll, window, List.length_take, List.length_drop]
    generalize ((store.map toResource).filter (evalFilterOpt f)).length = T
    omega
  · intro h
    subst h
    simp [getAll, window]

/-- Witness for claim C1 at the mock store with no filter, count 2 and
startIndex 1. -/
theorem getAll_pagination_correct_witness :
    (0 : Int) ≤ 2 ∧ (1 : Int) ≤ 1 ∧
    ((getAll mockUsers none 1 2).totalResults
        = mockUsers.countP (fun u => evalFilterOpt none (toResource u)) ∧
      ((none : Option FilterExpr) = none →
        (getAll mockUsers none 1 2).totalResults = mockUsers.length) ∧
      ((getAll mockUsers none 1 2).resources.length : Int)
        = max 0 (min 2 (((getAll mockUsers none 1 2).totalResults : Int) - (1 - 1))) ∧
      ((2 : Int) = 0 → (getAll mockUsers none 1 2).resources = [])) :=
  ⟨by decide, by decide,
    getAll_pagination_correct mockUsers none 2 1 (by decide) (by decide)⟩

/-- Claim C2 counterexample: at totalCount 0, startIndex 2, count 0 the
Pager returns offset 1 and limit 0, so offset + limit exceeds totalCount;
the claimed bound does not hold unconditionally. -/
theorem window_overrun_counterexample :
    ¬ ((window 0 2 0).1 + (window 0 2 0).2 ≤ 0) := by decide

/-- Claim C2 (amended): the Pager returns offset = startIndex - 1 after
clamping startIndex below at 1 and limit = max 0 (min count (totalCount -
offset)); offset + limit ≤ totalCount whenever offset ≤ totalCount, and
limit = 0 whenever count = 0 or offset ≥ totalCount. -/
theorem window_contract_amended (totalCount startIndex count : Int)
    (htc : 0 ≤ totalCount) (hc : 0 ≤ count) :
    (window totalCount startIndex count).1 = max startIndex 1 - 1 ∧
    (window totalCount startIndex count).2 =
      max 0 (min count (totalCount - (window totalCount startIndex count).1)) ∧
    ((window totalCount startIndex count).1 ≤ totalCount →
      (window totalCount startIndex count).1 + (window totalCount startIndex count).2
        ≤ totalCount) ∧
    (count = 0 → (window totalCount startIndex count).2 = 0) ∧
    (totalCount ≤ (window totalCount startIndex count).1 →
      (window totalCount startIndex count).2 = 0) := by
  refine ⟨rfl, rfl, ?_, ?_, ?_⟩ <;> simp only [window] <;> omega

/-- Witness for claim C2 at totalCount 4, startIndex 2, count 2. -/
theorem window_contract_amended_witness :
    (0 : Int) ≤ 4 ∧ (0 : Int) ≤ 2 ∧
    ((window 4 2 2).1 = max 2 1 - 1 ∧
      (window 4 2 2).2 = max 0 (min 2 (4 - (window 4 2 2).1)) ∧
      ((window 4 2 2).1 ≤ 4 → (window 4 2 2).1 + (window 4 2 2).2 ≤ 4) ∧
      ((2 : Int) = 0 → (window 4 2 2).2 = 0) ∧
      ((4 : Int) ≤ (window 4 2 2).1 → (window 4 2 2).2 = 0)) :=
  ⟨by decide, by decide, window_contract_amended 4 2 2 (by decide) (by decide)⟩

/-- Claim C3: on the four-user mock store, the filter userName eq "user3"
yields totalResults 1 with first id "3"; the OR filter on userName
"user3" or displayName "First Middle Last" yields totalResults 2; the AND
filter on userName "user3" and displayName "First Last" yields
totalResults 1 with first id "3". -/
theorem getAll_filter_cases :
    (getAll mockUsers (some filterUser3) 1 999).totalResults = 1 ∧
    (getAll mockUsers (some filterUser3) 1 999).resources.head?.map Resource.id
      = some "3" ∧
    (getAll mockUsers (some filterOr) 1 999).totalResults = 2 ∧
    (getAll mockUsers (some filterAnd) 1 999).totalResults = 1 ∧
    (getAll mockUsers (some filterAnd) 1 999).resources.head?.map Resource.id
      = some "3" := by
  decide

/-- Claim C4: for every user mapped to a resource, the displayName
attribute is the space-join of the nonempty components among givenName,
middleName and familyName of the synthesized name sub-object, recomputed
at read time; the components First/Last give "First Last" and
First/Middle/Last give "First Middle Last", as observed through Get on
the mock store. -/
theorem displayName_synthesized :
    (∀ (u : InternalUser) (n : NameAttr),
      (toResource u).attributes.name = some n →
      (toResource u).attributes.displayName =
        some (joinNameParts n.givenName n.middleName n.familyName)) ∧
    joinNameParts "First" "" "Last" = "First Last" ∧
    joinNameParts "First" "Middle" "Last" = "First Middle Last" ∧
    ((handleGet ⟨true⟩ mockUsers "1").1).map (fun r => r.attributes.displayName)
      = .ok (some "First Last") ∧
    ((handleGet ⟨true⟩ mockUsers "2").1).map (fun r => r.attributes.displayName)
      = .ok (some "First Middle Last") := by
  exact ⟨toResource_displayName_of_name, by decide, by decide, by rfl, by rfl⟩

/-- Witness for claim C4 at the first mock user. -/
theorem displayName_synthesized_witness :
    (toResource mockUser1).attributes.name
      = some ⟨"First", "", "Last"⟩ ∧
    (toResource mockUser1).attributes.displayName
      = some (joinNameParts "First" "" "Last") :=
  ⟨by decide, displayName_synthesized.1 mockUser1 ⟨"First", "", "Last"⟩ (by decide)⟩

/-- Claim C5: a caller who is not a site administrator gets a permission
error from every operation, and the operation performs no store access. -/
theorem unauthorized_no_store_access (caller : Caller)
    (store : List InternalUser) (id : String) (t : AttributeTree)
    (f : Option FilterExpr) (s c : Int) (h : caller.siteAdmin = false) :
    handleGet caller store id = (.error .permission, 0) ∧
    handleGetAll caller store f s c = (.error .permission, 0) ∧
    handleCreate caller store t = (.error .permission, 0) ∧
    handleReplace caller store id t = (.error .permission, 0) ∧
    handleDelete caller store id = (.error .permission, 0) := by
  simp [handleGet, handleGetAll, handleCreate, handleReplace, handleDelete, h]

/-- Witness for claim C5 at a non-admin caller over the mock store. -/
theorem unauthorized_no_store_access_witness :
    (Caller.mk false).siteAdmin = false ∧
    (handleGet ⟨false⟩ mockUsers "1" = (.error .permission, 0) ∧
      handleGetAll ⟨false⟩ mockUsers none 1 0 = (.error .permission, 0) ∧
      handleCreate ⟨false⟩ mockUsers ⟨none, none, none, none, none⟩
        = (.error .permission, 0) ∧
      handleReplace ⟨false⟩ mockUsers "1" ⟨none, none, none, none, none⟩
        = (.error .permission, 0) ∧
      handleDelete ⟨false⟩ mockUsers "1" = (.error .permission, 0)) :=
  ⟨rfl, unauthorized_no_store_access ⟨false⟩ mockUsers "1"
    ⟨none, none, none, none, none⟩ none 1 0 rfl⟩

/-- Claim C6: the resources returned by GetAll are an order-preserving
selection of the store's natural iteration order, through both filtering
and windowing; with no filter, count 2 and startIndex 2 the first id is
"2", and under the OR filter the first id is "2". -/
theorem getAll_preserves_store_order :
    (∀ (store : List InternalUser) (f : Option FilterExpr) (s c : Int),
      List.Sublist (getAll store f s c).resources (store.map toResource)) ∧
    (getAll mockUsers none 2 2).resources.head?.map Resource.id = some "2" ∧
    (getAll mockUsers (some filterOr) 1 999).resources.head?.map Resource.id
      = some "2" := by
  refine ⟨?_, by decide, by decide⟩
  intro store f s c
  exact ((List.take_sublist _ _).trans (List.drop_sublist _ _)).trans
    (List.filter_sublist _)

/-- Claim C7: mapping an internal user to its attribute tree and back
recovers the same userName for every user; on the mock user whose name
components are First and Last with no middle name, the round-tripped
displayName is "First Last" and the recovered middleName is empty. -/
theorem attribute_roundtrip :
    (∀ u : InternalUser,
      (fromAttributes (toResource u).attributes).username = some u.username) ∧
    (fromAttributes (toResource mockUser1).attributes).displayName
      = some "First Last" ∧
    (fromAttributes (toResource mockUser1).attributes).middleName = "" := by
  exact ⟨fun u => rfl, by decide, by decide⟩

/-- Claim C8: every mock-store user carries at most one isPrimary email;
the synthesized email list mirrors store order, is marked primary exactly
at the position of the first stored email with the isPrimary flag,
carries at most one primary mark, and carries none when no stored email
is marked primary. -/
theorem primary_email_marking :
    (∀ u ∈ mockUsers, u.emails.countP Email.isPrimary ≤ 1) ∧
    (∀ es : List Email,
      (synthEmails es).map EmailAttr.value = es.map Email.address) ∧
    (∀ (es : List Email) (j : Nat),
      (∃ e, (synthEmails es)[j]? = some e ∧ e.primary = true) ↔
        firstPrimaryIdx es = some j) ∧
    (∀ es : List Email, (synthEmails es).countP (fun e => e.primary) ≤ 1) ∧
    (∀ es : List Email, firstPrimaryIdx es = none →
      ∀ e ∈ synthEmails es, e.primary = false) := by
  exact ⟨by decide, fun es => synthEmailsGo_map_value false es,
    synthEmails_marked_iff, fun es => synthEmails_countP_le_one es,
    synthEmails_none_not_marked⟩

/-- Witness for claim C8 on a two-email list whose second email is the
first one marked primary. -/
theorem primary_email_marking_witness :
    firstPrimaryIdx [⟨"x@y.z", false, false⟩, ⟨"p@q.r", true, false⟩] = some 1 ∧
    (∃ e, (synthEmails [⟨"x@y.z", false, false⟩, ⟨"p@q.r", true, false⟩])[1]?
      = some e ∧ e.primary = true) :=
  ⟨by decide,
    (primary_email_marking.2.2.1 [⟨"x@y.z", false, false⟩, ⟨"p@q.r", true, false⟩] 1).mpr
      (by decide)⟩

/-- Claim C9: the name sub-object of every mapped user is synthesized by
splitting the stored flat DisplayName on spaces; "First Last" gives
givenName First, an empty but present middleName and familyName Last, and
"First Middle Last" puts the middle word in middleName, as observed
through Get on the mock store. -/
theorem name_sub_object_split :
    (∀ u : InternalUser,
      (toResource u).attributes.name = some (splitDisplayName u.displayName)) ∧
    splitDisplayName "First Last" = ⟨"First", "", "Last"⟩ ∧
    splitDisplayName "First Middle Last" = ⟨"First", "Middle", "Last"⟩ ∧
    ((handleGet ⟨true⟩ mockUsers "1").1).map (fun r => r.attributes.name)
      = .ok (some ⟨"First", "", "Last"⟩) ∧
    ((handleGet ⟨true⟩ mockUsers "2").1).map (fun r => r.attributes.name)
      = .ok (some ⟨"First", "Middle", "Last"⟩) := by
  exact ⟨fun u => rfl, by decide, by decide, by rfl, by rfl⟩

end Scim
